import Mathlib

/-!
Shallow embedding of the concurrent programming orchestrator of
BulkMCUploader (src/app_v3.py): hub-capacity admission control, the
auto-detect dispatch loop, the retry orchestrator, and result aggregation
into session statistics.

Conventions: Python sets are modelled as duplicate-free lists with
membership-guarded insertion and removal; Python dicts as association
lists in insertion order; wall-clock sleeps are recorded as a trace of
rational delay values; the external flashing tool is an oracle mapping
the attempt index to its outcome (a returned pair or a raised exception).
-/

namespace BulkMCUploader

abbrev Port := String

/-- One entry of `get_ports_with_hub_info`: the port path together with the
derived hub group id and hub nesting level. -/
structure PortInfo where
  port : Port
  hub_id : String
  hub_level : Nat
deriving DecidableEq, Repr

/-- The fields of `default_settings` / `saved_data` that the orchestrator
core reads (src/app_v3.py lines 464-479). -/
structure Settings where
  max_retries : Nat
  max_parallel_jobs : Nat
  max_devices_per_hub : Nat
  hub_programming_delay : Rat
  port_scan_interval : Rat
deriving DecidableEq, Repr

/-- `default_settings` of src/app_v3.py (the orchestrator-relevant fields). -/
def default_settings : Settings :=
  { max_retries := 3
    max_parallel_jobs := 4
    max_devices_per_hub := 2
    hub_programming_delay := 2
    port_scan_interval := 5 }

/-- `ProgrammingResult` (src/app_v3.py lines 36-53), without the wall-clock
duration/timestamp fields and the serial-monitor side thread. -/
structure ProgrammingResult where
  port : Port
  success : Bool
  message : String
  board_type : String
  fqbn : String
deriving DecidableEq, Repr

/-- Outcome of one invocation of `self.programmer.program_board`: either a
returned `(success, message)` pair or a raised exception with its text. -/
inductive AttemptOutcome where
  | ok (success : Bool) (message : String)
  | exn (text : String)
deriving DecidableEq, Repr

/-- `True` when the attempt outcome is treated as a failure by
`program_device_with_retry` (a returned failure or an exception). -/
def failsAttempt : AttemptOutcome → Bool
  | AttemptOutcome.ok true _ => false
  | AttemptOutcome.ok false _ => true
  | AttemptOutcome.exn _ => true

/-- The message that `program_device_with_retry` stores for an attempt: the
returned message, or the exception text under the prefix it adds. -/
def attemptMessage : AttemptOutcome → String
  | AttemptOutcome.ok _ m => m
  | AttemptOutcome.exn e => "Programming exception: " ++ e

/-- Observable behaviour of one `program_device_with_retry` run: the
returned result, the number of tool invocations, and the sleeps performed
(in seconds, in order). -/
structure RunTrace where
  result : ProgrammingResult
  calls : Nat
  delays : List Rat
deriving DecidableEq, Repr

/-- The inter-retry backoff sleep performed at the top of an attempt:
nothing for attempt 0, otherwise 2 seconds for hub-attached ports and
1 second for direct ports (src/app_v3.py lines 1539-1546). -/
def retryBackoff (hub_id : String) (attempt : Nat) : List Rat :=
  if 0 < attempt then [if hub_id ≠ "direct" then (2 : Rat) else 1] else []

/-- The `for attempt in range(max_retries + 1)` loop of
`program_device_with_retry` (src/app_v3.py lines 1537-1589), started at a
given attempt index with the number of remaining loop iterations as fuel.
The fuel-exhausted value is the post-loop safety fallback of line 1587. -/
def retryAux (tool : Nat → AttemptOutcome) (port board_type fqbn hub_id : String)
    (max_retries : Nat) : Nat → Nat → RunTrace
  | 0, _ =>
    ⟨⟨port, false, "Max retries exceeded", board_type, fqbn⟩, 0, []⟩
  | fuel + 1, attempt =>
    match tool attempt with
    | AttemptOutcome.ok true msg =>
      ⟨⟨port, true, msg, board_type, fqbn⟩, 1, retryBackoff hub_id attempt⟩
    | AttemptOutcome.ok false msg =>
      if attempt = max_retries then
        ⟨⟨port, false, msg, board_type, fqbn⟩, 1, retryBackoff hub_id attempt⟩
      else
        let t := retryAux tool port board_type fqbn hub_id max_retries fuel (attempt + 1)
        ⟨t.result, t.calls + 1, retryBackoff hub_id attempt ++ t.delays⟩
    | AttemptOutcome.exn e =>
      if attempt = max_retries then
        ⟨⟨port, false, "Programming exception: " ++ e, board_type, fqbn⟩, 1, retryBackoff hub_id attempt⟩
      else
        let t := retryAux tool port board_type fqbn hub_id max_retries fuel (attempt + 1)
        ⟨t.result, t.calls + 1, retryBackoff hub_id attempt ++ t.delays⟩

/-- `program_device_with_retry` (src/app_v3.py lines 1524-1589): hub
pre-delay for non-direct ports, then the retry loop. -/
def program_device_with_retry (tool : Nat → AttemptOutcome) (s : Settings)
    (fqbn port hub_id board_type : String) : RunTrace :=
  let t := retryAux tool port board_type fqbn hub_id s.max_retries (s.max_retries + 1) 0
  if hub_id ≠ "direct" then ⟨t.result, t.calls, s.hub_programming_delay :: t.delays⟩
  else t

/-- `program_single_port` (src/app_v3.py lines 1511-1522): submit one job
with hub id `"direct"`, wait for it, and put its result on the result
queue. The returned list is the sequence of queued results. -/
def program_single_port (tool : Nat → AttemptOutcome) (s : Settings)
    (fqbn port board_type : String) : List ProgrammingResult :=
  [(program_device_with_retry tool s fqbn port "direct" board_type).result]

/-- The port-dispatch decision of `programming_manager` (src/app_v3.py
lines 1386-1391): selecting `"All"` enters auto-detection mode, any other
selection programs that single port. The `autoQueued` argument stands for
the results the auto-detection mode would queue. -/
def programming_manager_queue (tool : Nat → AttemptOutcome) (s : Settings)
    (fqbn port_sel board_type : String)
    (autoQueued : List ProgrammingResult) : List ProgrammingResult :=
  if port_sel = "All" then autoQueued
  else program_single_port tool s fqbn port_sel board_type

/-- The `self.stats` dictionary (src/app_v3.py lines 1318-1324). -/
structure Stats where
  total_programmed : Nat
  successful : Nat
  failed : Nat
  session_results : List ProgrammingResult
deriving DecidableEq, Repr

/-- The statistics reset performed by `start_programming`
(src/app_v3.py lines 1318-1324). -/
def initStats : Stats :=
  { total_programmed := 0, successful := 0, failed := 0, session_results := [] }

/-- `process_programming_result` (src/app_v3.py lines 1673-1694): bump the
total, append the result, then bump the success or failure counter. -/
def process_programming_result (st : Stats) (r : ProgrammingResult) : Stats :=
  let st1 := { st with
    total_programmed := st.total_programmed + 1
    session_results := st.session_results ++ [r] }
  if r.success then { st1 with successful := st1.successful + 1 }
  else { st1 with failed := st1.failed + 1 }

/-- The statistics invariant stated by the spec:
`totalAttempted == successful + failed == len(results)`. -/
def StatsInv (st : Stats) : Prop :=
  st.total_programmed = st.successful + st.failed ∧
  st.total_programmed = st.session_results.length

/-! ### Hub-load state (the `hub_load_balancing` dict of sets) -/

/-- `hub_load_balancing`: a dict from hub id to the set of port ids
currently occupying a slot, in insertion order. -/
abbrev HubLoad := List (String × List Port)

/-- `hub_load_balancing.get(hub_id, set())`. -/
def lookupSet : HubLoad → String → List Port
  | [], _ => []
  | e :: rest, h => if e.1 = h then e.2 else lookupSet rest h

/-- Python `set.add`: a no-op when the element is already present. -/
def setAdd (s : List Port) (p : Port) : List Port :=
  if p ∈ s then s else s ++ [p]

/-- The guarded Python `set.remove`: `if port in s: s.remove(port)`. -/
def setDiscard (s : List Port) (p : Port) : List Port :=
  if p ∈ s then s.filter (fun q => q ≠ p) else s

/-- Hub-slot acquisition on admission (src/app_v3.py lines 1460-1462):
`if hub_id not in hub_load_balancing: hub_load_balancing[hub_id] = set()`
followed by `hub_load_balancing[hub_id].add(port)`. -/
def hubAdd : HubLoad → String → Port → HubLoad
  | [], h, p => [(h, [p])]
  | e :: rest, h, p =>
    if e.1 = h then (e.1, setAdd e.2 p) :: rest
    else e :: hubAdd rest h p

/-- Hub-slot release (src/app_v3.py lines 1500-1502 and 1434-1436):
`for hub_id in hub_load_balancing: if port in set: set.remove(port)`. -/
def releaseHub (hub : HubLoad) (p : Port) : HubLoad :=
  hub.map (fun e => (e.1, setDiscard e.2 p))

/-- `check_hub_capacity` (src/app_v3.py lines 1639-1647). -/
def check_hub_capacity (s : Settings) (hub_id : String) (hub : HubLoad) : Bool :=
  if hub_id = "direct" then true
  else (lookupSet hub hub_id).length < s.max_devices_per_hub

/-! ### The auto-detection poll loop (`auto_detect_and_program`) -/

/-- Status of a submitted future at the moment a tick inspects it:
still running, finished with a result, or finished with `.result()`
raising an exception. -/
inductive FutureStatus where
  | running
  | done (r : ProgrammingResult)
  | doneExn (text : String)
deriving DecidableEq, Repr

/-- `future.done()`. -/
def futureDone : FutureStatus → Bool
  | FutureStatus.running => false
  | _ => true

/-- The result delivered by `future.result()`, when it does not raise. -/
def futureResult? : FutureStatus → Option ProgrammingResult
  | FutureStatus.done r => some r
  | _ => none

/-- The environment one iteration of the `while not self.stop_programming`
loop observes: the scan snapshot, the state of each pending future, the
stop flag, the mode selector string, and the settings dictionary. -/
structure TickInput where
  info : List PortInfo
  futures : Port → FutureStatus
  stop : Bool
  mode : String
  settings : Settings

/-- The loop-local state of `auto_detect_and_program`
(src/app_v3.py lines 1405-1408): `known_ports`, the key set of
`pending_futures` in insertion order, `hub_load_balancing`, and
`programmed_ports`. -/
structure AutoState where
  known_ports : List Port
  pending : List Port
  hub_load : HubLoad
  programmed : List Port
deriving DecidableEq, Repr

/-- The initial loop state (all four structures start empty). -/
def initAuto : AutoState := ⟨[], [], [], []⟩

/-- `current_ports` as scanned this tick. -/
def currentPorts (info : List PortInfo) : List Port := info.map (fun pi => pi.port)

/-- Disconnect handling (src/app_v3.py lines 1428-1436): every port in
`known_ports - current_ports` is dropped from `pending_futures` and from
every hub group's active set. -/
def removeDisconnected (st : AutoState) (current : List Port) : AutoState :=
  let disc := st.known_ports.filter (fun p => p ∉ current)
  { st with
    pending := st.pending.filter (fun p => p ∉ disc)
    hub_load := st.hub_load.map (fun e => (e.1, e.2.filter (fun p => p ∉ disc))) }

/-- The dispatch `for port_info in current_ports_info` loop
(src/app_v3.py lines 1439-1473). Returns the updated `pending_futures`
key list, the updated hub load, and the ports submitted this tick in
submission order. -/
def dispatchLoop (s : Settings) (mode : String) (stop : Bool)
    (new_ports programmed : List Port) :
    List PortInfo → List Port → HubLoad → List Port × HubLoad × List Port
  | [], pending, hub => (pending, hub, [])
  | pi :: rest, pending, hub =>
    if mode = "Single" ∧ pi.port ∈ programmed then
      dispatchLoop s mode stop new_ports programmed rest pending hub
    else if pi.port ∈ new_ports ∧ stop = false ∧ pi.port ∉ pending then
      if check_hub_capacity s pi.hub_id hub then
        let res := dispatchLoop s mode stop new_ports programmed rest
          (pending ++ [pi.port]) (hubAdd hub pi.hub_id pi.port)
        (res.1, res.2.1, pi.port :: res.2.2)
      else
        dispatchLoop s mode stop new_ports programmed rest pending hub
    else
      dispatchLoop s mode stop new_ports programmed rest pending hub

/-- What one tick produces besides its successor state: the ports
submitted to the executor and the results put on `result_queue`. -/
structure TickOutput where
  state : AutoState
  submissions : List Port
  queued : List ProgrammingResult
deriving DecidableEq, Repr

/-- One full iteration of the `while not self.stop_programming` body of
`auto_detect_and_program` (src/app_v3.py lines 1418-1505): scan diff,
disconnect pruning, dispatch of new ports under hub admission, drain of
completed futures into the result queue (recording programmed ports in
single-batch mode), release of completed ports' hub slots, and the
`known_ports = current_ports` update. -/
def tick (st : AutoState) (inp : TickInput) : TickOutput :=
  let current := currentPorts inp.info
  let new_ports := current.filter (fun p => p ∉ st.known_ports)
  let st1 := removeDisconnected st current
  let d := dispatchLoop inp.settings inp.mode inp.stop new_ports st1.programmed
    inp.info st1.pending st1.hub_load
  let pending2 := d.1
  let hub2 := d.2.1
  let completed := pending2.filter (fun p => futureDone (inp.futures p))
  let queued := pending2.filterMap (fun p => futureResult? (inp.futures p))
  let programmed3 :=
    if inp.mode = "Single" then
      (pending2.filter (fun p => (futureResult? (inp.futures p)).isSome)).foldl
        setAdd st1.programmed
    else st1.programmed
  let pending3 := pending2.filter (fun p => p ∉ completed)
  let hub3 := completed.foldl releaseHub hub2
  { state := { known_ports := current, pending := pending3,
               hub_load := hub3, programmed := programmed3 }
    submissions := d.2.2
    queued := queued }

/-- A whole session fragment: fold `tick` over a list of tick inputs,
collecting each tick's submission list. -/
def runTicks : AutoState → List TickInput → AutoState × List (List Port)
  | st, [] => (st, [])
  | st, i :: rest =>
    let o := tick st i
    let r := runTicks o.state rest
    (r.1, o.submissions :: r.2)

/-! ### Nested-hub detection (`detect_nested_hubs`) -/

/-- The `max_hub_level` fold of `detect_nested_hubs`
(src/app_v3.py lines 1014-1017). -/
def maxHubLevel (info : List PortInfo) : Nat :=
  info.foldl (fun m pi => max m pi.hub_level) 0

/-- `detect_nested_hubs` (src/app_v3.py lines 1010-1036): when the
maximum hub level is at least 2, clamp `max_devices_per_hub` to 1, set
`hub_programming_delay` to 2.0 and clamp `max_parallel_jobs` to at most
2; return the maximum level together with the updated settings. -/
def detect_nested_hubs (info : List PortInfo) (s : Settings) : Nat × Settings :=
  let m := maxHubLevel info
  if 2 ≤ m then
    (m, { s with
      max_devices_per_hub := 1
      hub_programming_delay := 2
      max_parallel_jobs := min 2 s.max_parallel_jobs })
  else (m, s)

end BulkMCUploader

namespace BulkMCUploader

lemma retryAux_succ_ok_true (tool : Nat → AttemptOutcome) (port board_type fqbn hub_id : String)
    (maxR fuel attempt : Nat) (msg : String)
    (h : tool attempt = AttemptOutcome.ok true msg) :
    retryAux tool port board_type fqbn hub_id maxR (fuel + 1) attempt =
      ⟨⟨port, true, msg, board_type, fqbn⟩, 1, retryBackoff hub_id attempt⟩ := by
  simp only [retryAux, h]

lemma retryAux_succ_ok_false_last (tool : Nat → AttemptOutcome)
    (port board_type fqbn hub_id : String) (maxR fuel attempt : Nat) (msg : String)
    (h : tool attempt = AttemptOutcome.ok false msg) (ha : attempt = maxR) :
    retryAux tool port board_type fqbn hub_id maxR (fuel + 1) attempt =
      ⟨⟨port, false, msg, board_type, fqbn⟩, 1, retryBackoff hub_id attempt⟩ := by
  simp only [retryAux, h, if_pos ha]

lemma retryAux_succ_exn_last (tool : Nat → AttemptOutcome)
    (port board_type fqbn hub_id : String) (maxR fuel attempt : Nat) (e : String)
    (h : tool attempt = AttemptOutcome.exn e) (ha : attempt = maxR) :
    retryAux tool port board_type fqbn hub_id maxR (fuel + 1) attempt =
      ⟨⟨port, false, "Programming exception: " ++ e, board_type, fqbn⟩, 1,
        retryBackoff hub_id attempt⟩ := by
  simp only [retryAux, h, if_pos ha]

lemma retryAux_succ_fail_cont (tool : Nat → AttemptOutcome)
    (port board_type fqbn hub_id : String) (maxR fuel attempt : Nat)
    (h : failsAttempt (tool attempt) = true) (ha : attempt ≠ maxR) :
    retryAux tool port board_type fqbn hub_id maxR (fuel + 1) attempt =
      ⟨(retryAux tool port board_type fqbn hub_id maxR fuel (attempt + 1)).result,
       (retryAux tool port board_type fqbn hub_id maxR fuel (attempt + 1)).calls + 1,
       retryBackoff hub_id attempt ++
         (retryAux tool port board_type fqbn hub_id maxR fuel (attempt + 1)).delays⟩ := by
  cases hh : tool attempt with
  | ok s m =>
    cases s
    · simp only [retryAux, hh, if_neg ha]
    · rw [hh] at h; simp [failsAttempt] at h
  | exn e => simp only [retryAux, hh, if_neg ha]

lemma retryAux_allFail (tool : Nat → AttemptOutcome) (port board_type fqbn hub_id : String)
    (maxR : Nat) : ∀ fuel attempt, attempt + fuel = maxR →
      (∀ i, attempt ≤ i → i ≤ maxR → failsAttempt (tool i) = true) →
      (retryAux tool port board_type fqbn hub_id maxR (fuel + 1) attempt).calls = fuel + 1 ∧
      (retryAux tool port board_type fqbn hub_id maxR (fuel + 1) attempt).result.success = false ∧
      (retryAux tool port board_type fqbn hub_id maxR (fuel + 1) attempt).result.message
        = attemptMessage (tool maxR) := by
  intro fuel
  induction fuel with
  | zero =>
    intro attempt hsum hfail
    have ha : attempt = maxR := by omega
    subst ha
    have hf := hfail attempt le_rfl le_rfl
    cases h : tool attempt with
    | ok s m =>
      cases s
      · rw [retryAux_succ_ok_false_last tool port board_type fqbn hub_id _ _ _ _ h rfl]
        simp [attemptMessage, h]
      · rw [h] at hf; simp [failsAttempt] at hf
    | exn e =>
      rw [retryAux_succ_exn_last tool port board_type fqbn hub_id _ _ _ _ h rfl]
      simp [attemptMessage, h]
  | succ n ih =>
    intro attempt hsum hfail
    have hne : attempt ≠ maxR := by omega
    have hf := hfail attempt le_rfl (by omega)
    have ihr := ih (attempt + 1) (by omega) (fun i h1 h2 => hfail i (by omega) h2)
    rw [retryAux_succ_fail_cont tool port board_type fqbn hub_id _ _ _ hf hne]
    exact ⟨by simp [ihr.1], by simp [ihr.2.1], by simp [ihr.2.2]⟩

end BulkMCUploader

namespace BulkMCUploader

lemma retryAux_port (tool : Nat → AttemptOutcome) (port board_type fqbn hub_id : String)
    (maxR : Nat) : ∀ fuel attempt,
    (retryAux tool port board_type fqbn hub_id maxR fuel attempt).result.port = port ∧
    (retryAux tool port board_type fqbn hub_id maxR fuel attempt).result.board_type = board_type ∧
    (retryAux tool port board_type fqbn hub_id maxR fuel attempt).result.fqbn = fqbn := by
  intro fuel
  induction fuel with
  | zero => intro attempt; exact ⟨rfl, rfl, rfl⟩
  | succ n ih =>
    intro attempt
    by_cases ha : attempt = maxR
    · cases h : tool attempt with
      | ok s m =>
        cases s
        · rw [retryAux_succ_ok_false_last tool port board_type fqbn hub_id _ _ _ _ h ha]
          exact ⟨rfl, rfl, rfl⟩
        · rw [retryAux_succ_ok_true tool port board_type fqbn hub_id _ _ _ _ h]
          exact ⟨rfl, rfl, rfl⟩
      | exn e =>
        rw [retryAux_succ_exn_last tool port board_type fqbn hub_id _ _ _ _ h ha]
        exact ⟨rfl, rfl, rfl⟩
    · cases h : tool attempt with
      | ok s m =>
        cases s
        · rw [retryAux_succ_fail_cont tool port board_type fqbn hub_id _ _ _ (by simp [failsAttempt, h]) ha]
          exact ih (attempt + 1)
        · rw [retryAux_succ_ok_true tool port board_type fqbn hub_id _ _ _ _ h]
          exact ⟨rfl, rfl, rfl⟩
      | exn e =>
        rw [retryAux_succ_fail_cont tool port board_type fqbn hub_id _ _ _ (by simp [failsAttempt, h]) ha]
        exact ih (attempt + 1)

lemma retryAux_firstSuccess (tool : Nat → AttemptOutcome) (port board_type fqbn hub_id : String)
    (maxR k : Nat) (msg : String) (hk : k ≤ maxR)
    (hsucc : tool k = AttemptOutcome.ok true msg) :
    ∀ fuel attempt, attempt + fuel = maxR → attempt ≤ k →
      (∀ i, attempt ≤ i → i < k → failsAttempt (tool i) = true) →
      (retryAux tool port board_type fqbn hub_id maxR (fuel + 1) attempt).calls = k + 1 - attempt ∧
      (retryAux tool port board_type fqbn hub_id maxR (fuel + 1) attempt).result.success = true ∧
      (retryAux tool port board_type fqbn hub_id maxR (fuel + 1) attempt).result.message = msg := by
  intro fuel
  induction fuel with
  | zero =>
    intro attempt hsum hak hfail
    have ha : attempt = maxR := by omega
    have hak2 : attempt = k := by omega
    subst hak2
    rw [retryAux_succ_ok_true tool port board_type fqbn hub_id _ _ _ _ hsucc]
    have h2 : attempt + 1 - attempt = 1 := by omega
    exact ⟨by simp [h2], rfl, rfl⟩
  | succ n ih =>
    intro attempt hsum hak hfail
    by_cases hek : attempt = k
    · subst hek
      rw [retryAux_succ_ok_true tool port board_type fqbn hub_id _ _ _ _ hsucc]
      have h2 : attempt + 1 - attempt = 1 := by omega
      exact ⟨by simp [h2], rfl, rfl⟩
    · have hlt : attempt < k := by omega
      have hne : attempt ≠ maxR := by omega
      have hf := hfail attempt le_rfl hlt
      have ihr := ih (attempt + 1) (by omega) (by omega)
        (fun i h1 h2 => hfail i (by omega) h2)
      rw [retryAux_succ_fail_cont tool port board_type fqbn hub_id _ _ _ hf hne]
      refine ⟨?_, by simp [ihr.2.1], by simp [ihr.2.2]⟩
      have h1 := ihr.1
      simp only [h1]
      omega

lemma retryAux_direct_delays_pos (tool : Nat → AttemptOutcome)
    (port board_type fqbn : String) (maxR : Nat) : ∀ fuel attempt, 0 < attempt →
    (retryAux tool port board_type fqbn "direct" maxR fuel attempt).delays =
      List.replicate (retryAux tool port board_type fqbn "direct" maxR fuel attempt).calls
        (1 : Rat) := by
  intro fuel
  induction fuel with
  | zero => intro attempt _; rfl
  | succ n ih =>
    intro attempt hpos
    have hb : retryBackoff "direct" attempt = [(1 : Rat)] := by
      simp [retryBackoff, hpos]
    by_cases ha : attempt = maxR
    · cases h : tool attempt with
      | ok s m =>
        cases s
        · rw [retryAux_succ_ok_false_last tool port board_type fqbn "direct" _ _ _ _ h ha]
          simp [hb]
        · rw [retryAux_succ_ok_true tool port board_type fqbn "direct" _ _ _ _ h]
          simp [hb]
      | exn e =>
        rw [retryAux_succ_exn_last tool port board_type fqbn "direct" _ _ _ _ h ha]
        simp [hb]
    · cases h : tool attempt with
      | ok s m =>
        cases s
        · rw [retryAux_succ_fail_cont tool port board_type fqbn "direct" _ _ _ (by simp [failsAttempt, h]) ha]
          simp [hb, ih (attempt + 1) (by omega), List.replicate_succ]
        · rw [retryAux_succ_ok_true tool port board_type fqbn "direct" _ _ _ _ h]
          simp [hb]
      | exn e =>
        rw [retryAux_succ_fail_cont tool port board_type fqbn "direct" _ _ _ (by simp [failsAttempt, h]) ha]
        simp [hb, ih (attempt + 1) (by omega), List.replicate_succ]

lemma retryAux_direct_delays_zero (tool : Nat → AttemptOutcome)
    (port board_type fqbn : String) (maxR : Nat) (fuel : Nat) :
    (retryAux tool port board_type fqbn "direct" maxR fuel 0).delays =
      List.replicate ((retryAux tool port board_type fqbn "direct" maxR fuel 0).calls - 1)
        (1 : Rat) := by
  cases fuel with
  | zero => rfl
  | succ n =>
    have hb : retryBackoff "direct" 0 = [] := by simp [retryBackoff]
    by_cases ha : (0 : Nat) = maxR
    · cases h : tool 0 with
      | ok s m =>
        cases s
        · rw [retryAux_succ_ok_false_last tool port board_type fqbn "direct" _ _ _ _ h ha]
          simp [hb]
        · rw [retryAux_succ_ok_true tool port board_type fqbn "direct" _ _ _ _ h]
          simp [hb]
      | exn e =>
        rw [retryAux_succ_exn_last tool port board_type fqbn "direct" _ _ _ _ h ha]
        simp [hb]
    · cases h : tool 0 with
      | ok s m =>
        cases s
        · rw [retryAux_succ_fail_cont tool port board_type fqbn "direct" _ _ _ (by simp [failsAttempt, h]) ha]
          simp [hb, retryAux_direct_delays_pos tool port board_type fqbn maxR n 1 (by omega)]
        · rw [retryAux_succ_ok_true tool port board_type fqbn "direct" _ _ _ _ h]
          simp [hb]
      | exn e =>
        rw [retryAux_succ_fail_cont tool port board_type fqbn "direct" _ _ _ (by simp [failsAttempt, h]) ha]
        simp [hb, retryAux_direct_delays_pos tool port board_type fqbn maxR n 1 (by omega)]

end BulkMCUploader

namespace BulkMCUploader

lemma pdwr_result_calls (tool : Nat → AttemptOutcome) (s : Settings)
    (fqbn port hub_id board_type : String) :
    (program_device_with_retry tool s fqbn port hub_id board_type).result =
      (retryAux tool port board_type fqbn hub_id s.max_retries (s.max_retries + 1) 0).result ∧
    (program_device_with_retry tool s fqbn port hub_id board_type).calls =
      (retryAux tool port board_type fqbn hub_id s.max_retries (s.max_retries + 1) 0).calls := by
  unfold program_device_with_retry
  by_cases h : hub_id ≠ "direct" <;> simp [h]

lemma pdwr_direct (tool : Nat → AttemptOutcome) (s : Settings)
    (fqbn port board_type : String) :
    program_device_with_retry tool s fqbn port "direct" board_type =
      retryAux tool port board_type fqbn "direct" s.max_retries (s.max_retries + 1) 0 := by
  simp [program_device_with_retry]

/-- Claim C4: if every call to the external flashing tool fails,
`program_device_with_retry` makes exactly `max_retries + 1` tool
invocations and returns a failed result whose message is the last
attempt's message; if some attempt succeeds first at index `k` (all
earlier attempts failing), it returns a successful result right after
that attempt, having made exactly `k + 1` invocations. -/
theorem claim_C4_retry_bound (tool : Nat → AttemptOutcome) (s : Settings)
    (fqbn port hub_id board_type : String) :
    ((∀ i, i ≤ s.max_retries → failsAttempt (tool i) = true) →
      (program_device_with_retry tool s fqbn port hub_id board_type).calls
          = s.max_retries + 1 ∧
      (program_device_with_retry tool s fqbn port hub_id board_type).result.success = false ∧
      (program_device_with_retry tool s fqbn port hub_id board_type).result.message
          = attemptMessage (tool s.max_retries)) ∧
    (∀ k msg, k ≤ s.max_retries → tool k = AttemptOutcome.ok true msg →
      (∀ i, i < k → failsAttempt (tool i) = true) →
      (program_device_with_retry tool s fqbn port hub_id board_type).calls = k + 1 ∧
      (program_device_with_retry tool s fqbn port hub_id board_type).result.success = true ∧
      (program_device_with_retry tool s fqbn port hub_id board_type).result.message = msg) := by
  obtain ⟨hr, hc⟩ := pdwr_result_calls tool s fqbn port hub_id board_type
  constructor
  · intro hfail
    have h := retryAux_allFail tool port board_type fqbn hub_id s.max_retries
      s.max_retries 0 (by omega) (fun i _ h2 => hfail i h2)
    exact ⟨by rw [hc]; exact h.1, by rw [hr]; exact h.2.1, by rw [hr]; exact h.2.2⟩
  · intro k msg hk hsucc hfail
    have h := retryAux_firstSuccess tool port board_type fqbn hub_id s.max_retries
      k msg hk hsucc s.max_retries 0 (by omega) (by omega)
      (fun i _ h2 => hfail i h2)
    refine ⟨by rw [hc]; simpa using h.1, by rw [hr]; exact h.2.1, by rw [hr]; exact h.2.2⟩

def c4toolFail : Nat → AttemptOutcome := fun _ => AttemptOutcome.ok false "nope"

def c4toolOk : Nat → AttemptOutcome := fun i =>
  if i < 2 then AttemptOutcome.ok false "nope" else AttemptOutcome.ok true "done"

theorem claim_C4_retry_bound_witness :
    ((program_device_with_retry c4toolFail default_settings "fw.hex" "COM3" "direct" "Uno").calls
        = 4 ∧
      (program_device_with_retry c4toolFail default_settings "fw.hex" "COM3" "direct"
        "Uno").result.success = false ∧
      (program_device_with_retry c4toolFail default_settings "fw.hex" "COM3" "direct"
        "Uno").result.message = "nope") ∧
    ((program_device_with_retry c4toolOk default_settings "fw.hex" "COM3" "direct" "Uno").calls
        = 3 ∧
      (program_device_with_retry c4toolOk default_settings "fw.hex" "COM3" "direct"
        "Uno").result.success = true ∧
      (program_device_with_retry c4toolOk default_settings "fw.hex" "COM3" "direct"
        "Uno").result.message = "done") := by
  constructor
  · exact (claim_C4_retry_bound c4toolFail default_settings "fw.hex" "COM3" "direct" "Uno").1
      (fun i _ => rfl)
  · exact (claim_C4_retry_bound c4toolOk default_settings "fw.hex" "COM3" "direct" "Uno").2
      2 "done" (by decide) rfl (fun i hi => by simp [c4toolOk, hi, failsAttempt])

/-- Claim C7: no exception escapes `program_device_with_retry` — for any
oracle (any pattern of raised exceptions) the function still returns a
`ProgrammingResult` for the requested port; when every attempt raises,
the terminal result is a failure carrying the last exception's text under
the `Programming exception:` prefix; an exception on attempt 0 followed
by a success on attempt 1 is retried like an ordinary failure and yields
a successful result. -/
theorem claim_C7_exceptions_folded (tool : Nat → AttemptOutcome) (s : Settings)
    (fqbn port hub_id board_type : String) (etext : Nat → String) :
    (program_device_with_retry tool s fqbn port hub_id board_type).result.port = port ∧
    ((∀ i, i ≤ s.max_retries → tool i = AttemptOutcome.exn (etext i)) →
      (program_device_with_retry tool s fqbn port hub_id board_type).calls
          = s.max_retries + 1 ∧
      (program_device_with_retry tool s fqbn port hub_id board_type).result.success = false ∧
      (program_device_with_retry tool s fqbn port hub_id board_type).result.message
          = "Programming exception: " ++ etext s.max_retries) ∧
    (∀ e m, tool 0 = AttemptOutcome.exn e → tool 1 = AttemptOutcome.ok true m →
      1 ≤ s.max_retries →
      (program_device_with_retry tool s fqbn port hub_id board_type).result.success = true ∧
      (program_device_with_retry tool s fqbn port hub_id board_type).result.message = m) := by
  obtain ⟨hr, hc⟩ := pdwr_result_calls tool s fqbn port hub_id board_type
  refine ⟨?_, ?_, ?_⟩
  · rw [hr]
    exact (retryAux_port tool port board_type fqbn hub_id s.max_retries
      (s.max_retries + 1) 0).1
  · intro hexn
    have hfail : ∀ i, i ≤ s.max_retries → failsAttempt (tool i) = true := by
      intro i hi
      rw [hexn i hi]
      rfl
    have h := retryAux_allFail tool port board_type fqbn hub_id s.max_retries
      s.max_retries 0 (by omega) (fun i _ h2 => hfail i h2)
    refine ⟨by rw [hc]; exact h.1, by rw [hr]; exact h.2.1, ?_⟩
    rw [hr, h.2.2, hexn s.max_retries le_rfl]
    rfl
  · intro e m h0 h1 hmr
    have h := retryAux_firstSuccess tool port board_type fqbn hub_id s.max_retries
      1 m hmr h1 s.max_retries 0 (by omega) (by omega)
      (fun i _ hik => by
        have : i = 0 := by omega
        rw [this, h0]
        rfl)
    exact ⟨by rw [hr]; exact h.2.1, by rw [hr]; exact h.2.2⟩

def c7toolExn : Nat → AttemptOutcome := fun _ => AttemptOutcome.exn "boom"

def c7toolRecover : Nat → AttemptOutcome := fun i =>
  if i = 0 then AttemptOutcome.exn "boom" else AttemptOutcome.ok true "up"

theorem claim_C7_exceptions_folded_witness :
    (program_device_with_retry c7toolExn default_settings "fw.hex" "COM7" "1-2"
      "Uno").result.port = "COM7" ∧
    ((program_device_with_retry c7toolExn default_settings "fw.hex" "COM7" "1-2" "Uno").calls
        = 4 ∧
      (program_device_with_retry c7toolExn default_settings "fw.hex" "COM7" "1-2"
        "Uno").result.success = false ∧
      (program_device_with_retry c7toolExn default_settings "fw.hex" "COM7" "1-2"
        "Uno").result.message = "Programming exception: boom") ∧
    ((program_device_with_retry c7toolRecover default_settings "fw.hex" "COM7" "1-2"
        "Uno").result.success = true ∧
      (program_device_with_retry c7toolRecover default_settings "fw.hex" "COM7" "1-2"
        "Uno").result.message = "up") := by
  refine ⟨?_, ?_, ?_⟩
  · exact (claim_C7_exceptions_folded c7toolExn default_settings "fw.hex" "COM7" "1-2" "Uno"
      (fun _ => "boom")).1
  · exact (claim_C7_exceptions_folded c7toolExn default_settings "fw.hex" "COM7" "1-2" "Uno"
      (fun _ => "boom")).2.1 (fun i _ => rfl)
  · exact (claim_C7_exceptions_folded c7toolRecover default_settings "fw.hex" "COM7" "1-2" "Uno"
      (fun _ => "boom")).2.2 "boom" "up" rfl rfl (by decide)

/-- Claim C10: when a specific port (not `"All"`) is selected, the
programming manager runs exactly one job for that port with hub id fixed
to `"direct"`, and finishes with exactly that job's result on the result
queue; with hub id `"direct"` the hub pre-delay is skipped and every
inter-retry backoff is 1 second (the delay trace is exactly one 1-second
entry per retry). -/
theorem claim_C10_single_port (tool : Nat → AttemptOutcome) (s : Settings)
    (fqbn port_sel board_type : String) (autoQueued : List ProgrammingResult)
    (h : port_sel ≠ "All") :
    programming_manager_queue tool s fqbn port_sel board_type autoQueued =
      [(program_device_with_retry tool s fqbn port_sel "direct" board_type).result] ∧
    (program_device_with_retry tool s fqbn port_sel "direct" board_type).delays =
      List.replicate
        ((program_device_with_retry tool s fqbn port_sel "direct" board_type).calls - 1)
        (1 : Rat) := by
  constructor
  · simp [programming_manager_queue, h, program_single_port]
  · rw [pdwr_direct]
    exact retryAux_direct_delays_zero tool port_sel board_type fqbn s.max_retries
      (s.max_retries + 1)

def c10tool : Nat → AttemptOutcome := fun i =>
  if i < 2 then AttemptOutcome.exn "busy" else AttemptOutcome.ok true "done"

theorem claim_C10_single_port_witness :
    programming_manager_queue c10tool default_settings "fq" "COM9" "Uno" [] =
      [(program_device_with_retry c10tool default_settings "fq" "COM9" "direct" "Uno").result] ∧
    (program_device_with_retry c10tool default_settings "fq" "COM9" "direct" "Uno").delays =
      List.replicate
        ((program_device_with_retry c10tool default_settings "fq" "COM9" "direct" "Uno").calls - 1)
        (1 : Rat) :=
  claim_C10_single_port c10tool default_settings "fq" "COM9" "Uno" [] (by decide)

end BulkMCUploader

namespace BulkMCUploader

lemma process_preserves_inv (st : Stats) (r : ProgrammingResult) :
    StatsInv st → StatsInv (process_programming_result st r) := by
  intro ⟨h1, h2⟩
  by_cases hr : r.success <;>
    simp [process_programming_result, StatsInv, hr, h1, h2] <;> omega

lemma foldl_process_inv : ∀ (rs : List ProgrammingResult) (st : Stats), StatsInv st →
    StatsInv (rs.foldl process_programming_result st) := by
  intro rs
  induction rs with
  | nil => intro st h; exact h
  | cons r rest ih =>
    intro st h
    exact ih (process_programming_result st r) (process_preserves_inv st r h)

/-- Claim C3: every call of `process_programming_result` preserves
`total_programmed == successful + failed == len(session_results)`, so the
invariant holds after every aggregation step of a session started from
the reset statistics. -/
theorem claim_C3_stats_invariant :
    (∀ (st : Stats) (r : ProgrammingResult),
      StatsInv st → StatsInv (process_programming_result st r)) ∧
    (∀ rs : List ProgrammingResult,
      StatsInv (rs.foldl process_programming_result initStats)) := by
  refine ⟨process_preserves_inv, fun rs => foldl_process_inv rs initStats ⟨rfl, rfl⟩⟩

theorem claim_C3_stats_invariant_witness :
    StatsInv (process_programming_result initStats ⟨"COM3", true, "done", "Uno", "fq"⟩) ∧
    StatsInv ([(⟨"COM3", true, "done", "Uno", "fq"⟩ : ProgrammingResult),
               ⟨"COM4", false, "bad", "Uno", "fq"⟩].foldl
        process_programming_result initStats) :=
  ⟨claim_C3_stats_invariant.1 initStats ⟨"COM3", true, "done", "Uno", "fq"⟩ ⟨rfl, rfl⟩,
   claim_C3_stats_invariant.2 [⟨"COM3", true, "done", "Uno", "fq"⟩,
     ⟨"COM4", false, "bad", "Uno", "fq"⟩]⟩

lemma setDiscard_not_mem (s : List Port) (p : Port) : p ∉ setDiscard s p := by
  unfold setDiscard
  by_cases h : p ∈ s <;> simp [h]

lemma setDiscard_eq_of_not_mem (s : List Port) (p : Port) (h : p ∉ s) :
    setDiscard s p = s := by
  simp [setDiscard, h]

lemma setDiscard_idem (s : List Port) (p : Port) :
    setDiscard (setDiscard s p) p = setDiscard s p :=
  setDiscard_eq_of_not_mem (setDiscard s p) p (setDiscard_not_mem s p)

/-- Claim C9: releasing a port's hub-capacity slot is idempotent —
removing a port from every hub group's active set twice equals removing
it once, and releasing a port held by no group leaves the hub-load state
unchanged. -/
theorem claim_C9_release_idempotent :
    (∀ (hub : HubLoad) (p : Port), releaseHub (releaseHub hub p) p = releaseHub hub p) ∧
    (∀ (hub : HubLoad) (p : Port), (∀ e ∈ hub, p ∉ e.2) → releaseHub hub p = hub) := by
  constructor
  · intro hub p
    unfold releaseHub
    rw [List.map_map]
    refine List.map_congr_left ?_
    intro e _
    simp [Function.comp, setDiscard_idem]
  · intro hub p h
    unfold releaseHub
    conv_rhs => rw [show hub = hub.map id from (List.map_id hub).symm]
    refine List.map_congr_left ?_
    intro e he
    simp [setDiscard_eq_of_not_mem e.2 p (h e he)]

theorem claim_C9_release_idempotent_witness :
    releaseHub (releaseHub [("1-2", ["A", "B"]), ("1-3", ["A"])] "A") "A" =
      releaseHub [("1-2", ["A", "B"]), ("1-3", ["A"])] "A" ∧
    releaseHub [("1-2", ["B"])] "A" = [("1-2", ["B"])] :=
  ⟨claim_C9_release_idempotent.1 [("1-2", ["A", "B"]), ("1-3", ["A"])] "A",
   claim_C9_release_idempotent.2 [("1-2", ["B"])] "A" (by decide)⟩

end BulkMCUploader

namespace BulkMCUploader

lemma mem_setAdd_self (s : List Port) (p : Port) : p ∈ setAdd s p := by
  unfold setAdd
  by_cases h : p ∈ s <;> simp [h]

lemma mem_setAdd_mono (s : List Port) (p q : Port) (h : q ∈ s) : q ∈ setAdd s p := by
  unfold setAdd
  by_cases hm : p ∈ s <;> simp [hm, h]

lemma mem_lookupSet_hubAdd : ∀ (hub : HubLoad) (h : String) (p : Port),
    p ∈ lookupSet (hubAdd hub h p) h := by
  intro hub h p
  induction hub with
  | nil => simp [hubAdd, lookupSet]
  | cons e rest ih =>
    by_cases he : e.1 = h
    · simp [hubAdd, he, lookupSet, mem_setAdd_self]
    · simp [hubAdd, he, lookupSet, ih]

lemma dispatchLoop_spec (s : Settings) (mode : String) (stop : Bool)
    (new_ports programmed : List Port) :
    ∀ (info : List PortInfo) (pending : List Port) (hub : HubLoad),
      (∀ q ∈ pending,
        q ∈ (dispatchLoop s mode stop new_ports programmed info pending hub).1) ∧
      (∀ q ∈ (dispatchLoop s mode stop new_ports programmed info pending hub).2.2,
        q ∉ pending) ∧
      (∀ q ∈ (dispatchLoop s mode stop new_ports programmed info pending hub).2.2,
        q ∈ (dispatchLoop s mode stop new_ports programmed info pending hub).1) ∧
      (dispatchLoop s mode stop new_ports programmed info pending hub).2.2.Nodup ∧
      (pending.Nodup →
        (dispatchLoop s mode stop new_ports programmed info pending hub).1.Nodup) := by
  intro info
  induction info with
  | nil =>
    intro pending hub
    simp [dispatchLoop]
  | cons pi rest ih =>
    intro pending hub
    by_cases h1 : mode = "Single" ∧ pi.port ∈ programmed
    · simpa only [dispatchLoop, if_pos h1] using ih pending hub
    · by_cases h2 : pi.port ∈ new_ports ∧ stop = false ∧ pi.port ∉ pending
      · by_cases h3 : check_hub_capacity s pi.hub_id hub = true
        · have ihx := ih (pending ++ [pi.port]) (hubAdd hub pi.hub_id pi.port)
          obtain ⟨mono, notpend, subsin, nodupsubs, noduppend⟩ := ihx
          simp only [dispatchLoop, if_neg h1, if_pos h2, if_pos h3]
          refine ⟨?_, ?_, ?_, ?_, ?_⟩
          · intro q hq
            exact mono q (List.mem_append_left _ hq)
          · intro q hq
            rcases List.mem_cons.mp hq with hq | hq
            · rw [hq]; exact h2.2.2
            · intro hc
              exact notpend q hq (List.mem_append_left _ hc)
          · intro q hq
            rcases List.mem_cons.mp hq with hq | hq
            · rw [hq]
              exact mono pi.port (List.mem_append_right _ (List.mem_singleton.mpr rfl))
            · exact subsin q hq
          · refine List.Nodup.cons ?_ nodupsubs
            intro hc
            exact notpend pi.port hc (List.mem_append_right _ (List.mem_singleton.mpr rfl))
          · intro hp
            refine noduppend ?_
            simp [List.nodup_append, hp, h2.2.2]
        · simpa only [dispatchLoop, if_neg h1, if_pos h2, if_neg h3] using ih pending hub
      · simpa only [dispatchLoop, if_neg h1, if_neg h2] using ih pending hub

end BulkMCUploader

namespace BulkMCUploader

lemma tick_submissions_eq (st : AutoState) (inp : TickInput) :
    (tick st inp).submissions =
      (dispatchLoop inp.settings inp.mode inp.stop
        ((currentPorts inp.info).filter (fun p => p ∉ st.known_ports))
        (removeDisconnected st (currentPorts inp.info)).programmed
        inp.info
        (removeDisconnected st (currentPorts inp.info)).pending
        (removeDisconnected st (currentPorts inp.info)).hub_load).2.2 := rfl

lemma tick_state_pending_eq (st : AutoState) (inp : TickInput) :
    (tick st inp).state.pending =
      (let d := dispatchLoop inp.settings inp.mode inp.stop
        ((currentPorts inp.info).filter (fun p => p ∉ st.known_ports))
        (removeDisconnected st (currentPorts inp.info)).programmed
        inp.info
        (removeDisconnected st (currentPorts inp.info)).pending
        (removeDisconnected st (currentPorts inp.info)).hub_load
      d.1.filter (fun p => p ∉ d.1.filter (fun q => futureDone (inp.futures q)))) := rfl

lemma removeDisconnected_programmed (st : AutoState) (current : List Port) :
    (removeDisconnected st current).programmed = st.programmed := rfl

lemma tick_subs_nodup (st : AutoState) (inp : TickInput) :
    (tick st inp).submissions.Nodup := by
  rw [tick_submissions_eq]
  exact (dispatchLoop_spec inp.settings inp.mode inp.stop _ _ inp.info _ _).2.2.2.1

lemma tick_subs_not_pending (st : AutoState) (inp : TickInput) :
    ∀ p ∈ (tick st inp).submissions,
      p ∉ (removeDisconnected st (currentPorts inp.info)).pending := by
  rw [tick_submissions_eq]
  exact (dispatchLoop_spec inp.settings inp.mode inp.stop _ _ inp.info _ _).2.1

lemma tick_pending_nodup (st : AutoState) (inp : TickInput) (h : st.pending.Nodup) :
    (tick st inp).state.pending.Nodup := by
  rw [tick_state_pending_eq]
  refine List.Nodup.filter _ ?_
  refine (dispatchLoop_spec inp.settings inp.mode inp.stop _ _ inp.info _ _).2.2.2.2 ?_
  exact List.Nodup.filter _ h

lemma runTicks_nodup : ∀ (inputs : List TickInput) (st : AutoState), st.pending.Nodup →
    ((runTicks st inputs).1).pending.Nodup ∧
    (∀ l ∈ (runTicks st inputs).2, l.Nodup) := by
  intro inputs
  induction inputs with
  | nil => intro st h; exact ⟨h, by simp [runTicks]⟩
  | cons i rest ih =>
    intro st h
    have hstep := tick_pending_nodup st i h
    have ihx := ih (tick st i).state hstep
    refine ⟨by simpa [runTicks] using ihx.1, ?_⟩
    intro l hl
    simp only [runTicks, List.mem_cons] at hl
    rcases hl with hl | hl
    · rw [hl]; exact tick_subs_nodup st i
    · exact ihx.2 l hl

/-- Claim C1: at most one in-flight programming job per port — a tick
submits a port only when it has no pending future at dispatch time, a
tick never submits the same port twice, and over any whole session run
started from the empty state the pending-future key set never holds a
port twice. -/
theorem claim_C1_no_double_dispatch :
    (∀ (st : AutoState) (inp : TickInput),
      (tick st inp).submissions.Nodup ∧
      (∀ p ∈ (tick st inp).submissions,
        p ∉ (removeDisconnected st (currentPorts inp.info)).pending)) ∧
    (∀ inputs : List TickInput,
      ((runTicks initAuto inputs).1).pending.Nodup ∧
      (∀ l ∈ (runTicks initAuto inputs).2, l.Nodup)) :=
  ⟨fun st inp => ⟨tick_subs_nodup st inp, tick_subs_not_pending st inp⟩,
   fun inputs => runTicks_nodup inputs initAuto List.nodup_nil⟩

def c1info : List PortInfo := [⟨"A", "1-2", 1⟩, ⟨"B", "1-2", 1⟩]

def c1in : TickInput :=
  ⟨c1info, fun _ => FutureStatus.running, false, "Continuous", default_settings⟩

theorem claim_C1_no_double_dispatch_witness :
    (tick initAuto c1in).submissions.Nodup ∧
    ("A" ∈ (tick initAuto c1in).submissions →
      "A" ∉ (removeDisconnected initAuto (currentPorts c1in.info)).pending) ∧
    ((runTicks initAuto [c1in, c1in]).1).pending.Nodup :=
  ⟨(claim_C1_no_double_dispatch.1 initAuto c1in).1,
   (claim_C1_no_double_dispatch.1 initAuto c1in).2 "A",
   (claim_C1_no_double_dispatch.2 [c1in, c1in]).1⟩

lemma dispatchLoop_one_admitted (s : Settings) (mode : String) (stop : Bool)
    (new_ports programmed : List Port) (pi : PortInfo) (pending : List Port)
    (hub : HubLoad)
    (h1 : ¬(mode = "Single" ∧ pi.port ∈ programmed))
    (h2 : pi.port ∈ new_ports ∧ stop = false ∧ pi.port ∉ pending)
    (h3 : check_hub_capacity s pi.hub_id hub = true) :
    dispatchLoop s mode stop new_ports programmed [pi] pending hub =
      (pending ++ [pi.port], hubAdd hub pi.hub_id pi.port, [pi.port]) := by
  simp only [dispatchLoop, if_neg h1, if_pos h2, if_pos h3]

/-- Claim C2: `check_hub_capacity` always admits hub group `"direct"`;
for any other group it admits exactly when the group's active set has
fewer ports than `max_devices_per_hub` (2 in `default_settings`); and an
admitted port is recorded in its group's active set by the dispatch
step. -/
theorem claim_C2_admission (s : Settings) (hub : HubLoad) :
    check_hub_capacity s "direct" hub = true ∧
    (∀ hub_id : String, hub_id ≠ "direct" →
      (check_hub_capacity s hub_id hub = true ↔
        (lookupSet hub hub_id).length < s.max_devices_per_hub)) ∧
    default_settings.max_devices_per_hub = 2 ∧
    (∀ (mode : String) (stop : Bool) (new_ports programmed pending : List Port)
        (pi : PortInfo),
      ¬(mode = "Single" ∧ pi.port ∈ programmed) →
      pi.port ∈ new_ports ∧ stop = false ∧ pi.port ∉ pending →
      check_hub_capacity s pi.hub_id hub = true →
      (dispatchLoop s mode stop new_ports programmed [pi] pending hub).2.2 = [pi.port] ∧
      pi.port ∈ lookupSet
        (dispatchLoop s mode stop new_ports programmed [pi] pending hub).2.1
        pi.hub_id) := by
  refine ⟨by simp [check_hub_capacity], ?_, rfl, ?_⟩
  · intro hub_id hne
    simp [check_hub_capacity, hne]
  · intro mode stop new_ports programmed pending pi h1 h2 h3
    rw [dispatchLoop_one_admitted s mode stop new_ports programmed pi pending hub h1 h2 h3]
    exact ⟨rfl, mem_lookupSet_hubAdd hub pi.hub_id pi.port⟩

theorem claim_C2_admission_witness :
    check_hub_capacity default_settings "direct" [("1-2", ["A", "B", "C"])] = true ∧
    (check_hub_capacity default_settings "1-2" [("1-2", ["A", "B", "C"])] = true ↔
      (lookupSet [("1-2", ["A", "B", "C"])] "1-2").length <
        default_settings.max_devices_per_hub) ∧
    ((dispatchLoop default_settings "Continuous" false ["D"] [] [(⟨"D", "1-3", 1⟩ : PortInfo)]
        [] [("1-2", ["A", "B", "C"])]).2.2 = ["D"] ∧
      "D" ∈ lookupSet (dispatchLoop default_settings "Continuous" false ["D"] []
        [(⟨"D", "1-3", 1⟩ : PortInfo)] [] [("1-2", ["A", "B", "C"])]).2.1 "1-3") :=
  ⟨(claim_C2_admission default_settings [("1-2", ["A", "B", "C"])]).1,
   (claim_C2_admission default_settings [("1-2", ["A", "B", "C"])]).2.1 "1-2" (by decide),
   (claim_C2_admission default_settings [("1-2", ["A", "B", "C"])]).2.2.2 "Continuous" false
     ["D"] [] [] ⟨"D", "1-3", 1⟩ (by decide) (by decide) (by decide)⟩

end BulkMCUploader

namespace BulkMCUploader

lemma foldl_setAdd_mem_mono (p : Port) :
    ∀ (l : List Port) (s : List Port), p ∈ s → p ∈ l.foldl setAdd s := by
  intro l
  induction l with
  | nil => intro s h; exact h
  | cons x rest ih =>
    intro s h
    exact ih (setAdd s x) (mem_setAdd_mono s x p h)

lemma tick_state_programmed_eq (st : AutoState) (inp : TickInput) :
    (tick st inp).state.programmed =
      (let d := dispatchLoop inp.settings inp.mode inp.stop
        ((currentPorts inp.info).filter (fun p => p ∉ st.known_ports))
        (removeDisconnected st (currentPorts inp.info)).programmed
        inp.info
        (removeDisconnected st (currentPorts inp.info)).pending
        (removeDisconnected st (currentPorts inp.info)).hub_load
      if inp.mode = "Single" then
        (d.1.filter (fun p => (futureResult? (inp.futures p)).isSome)).foldl
          setAdd st.programmed
      else st.programmed) := rfl

lemma tick_programmed_mono (st : AutoState) (inp : TickInput) (p : Port)
    (h : p ∈ st.programmed) : p ∈ (tick st inp).state.programmed := by
  rw [tick_state_programmed_eq]
  by_cases hm : inp.mode = "Single"
  · simp only [hm, if_pos]
    exact foldl_setAdd_mem_mono p _ st.programmed h
  · simp only [if_neg hm]
    exact h

lemma dispatchLoop_not_submitted_programmed (s : Settings) (mode : String) (stop : Bool)
    (new_ports programmed : List Port) (p : Port) (hm : mode = "Single")
    (hp : p ∈ programmed) :
    ∀ (info : List PortInfo) (pending : List Port) (hub : HubLoad),
      p ∉ (dispatchLoop s mode stop new_ports programmed info pending hub).2.2 := by
  intro info
  induction info with
  | nil => intro pending hub; simp [dispatchLoop]
  | cons pi rest ih =>
    intro pending hub
    by_cases hin : pi.port ∈ programmed
    · simpa only [dispatchLoop, if_pos (And.intro hm hin)] using ih pending hub
    · have h1 : ¬(mode = "Single" ∧ pi.port ∈ programmed) := fun hc => hin hc.2
      by_cases h2 : pi.port ∈ new_ports ∧ stop = false ∧ pi.port ∉ pending
      · by_cases h3 : check_hub_capacity s pi.hub_id hub = true
        · simp only [dispatchLoop, if_neg h1, if_pos h2, if_pos h3]
          intro hc
          rcases List.mem_cons.mp hc with hc | hc
          · exact hin (hc ▸ hp)
          · exact ih (pending ++ [pi.port]) (hubAdd hub pi.hub_id pi.port) hc
        · simpa only [dispatchLoop, if_neg h1, if_pos h2, if_neg h3] using ih pending hub
      · simpa only [dispatchLoop, if_neg h1, if_neg h2] using ih pending hub

lemma tick_single_not_submitted (st : AutoState) (inp : TickInput) (p : Port)
    (hm : inp.mode = "Single") (hp : p ∈ st.programmed) :
    p ∉ (tick st inp).submissions := by
  rw [tick_submissions_eq]
  exact dispatchLoop_not_submitted_programmed inp.settings inp.mode inp.stop _ _ p hm hp
    inp.info _ _

/-- Claim C6: in single-batch mode a port recorded as programmed is never
submitted again at any later tick of the session, whatever scans occur
(including disconnect/reappear); in continuous mode a reappearing port is
dispatched again whenever it has no pending future (given the stop flag
is clear and its hub group has capacity). -/
theorem claim_C6_mode_eligibility :
    (∀ (inputs : List TickInput) (st : AutoState) (p : Port),
      p ∈ st.programmed → (∀ i ∈ inputs, i.mode = "Single") →
      ∀ l ∈ (runTicks st inputs).2, p ∉ l) ∧
    (∀ (st : AutoState) (inp : TickInput) (pi : PortInfo),
      inp.info = [pi] → inp.mode = "Continuous" → inp.stop = false →
      pi.port ∉ st.known_ports →
      pi.port ∉ (removeDisconnected st (currentPorts inp.info)).pending →
      check_hub_capacity inp.settings pi.hub_id
        (removeDisconnected st (currentPorts inp.info)).hub_load = true →
      pi.port ∈ (tick st inp).submissions) := by
  constructor
  · intro inputs
    induction inputs with
    | nil => intro st p _ _ l hl; simp [runTicks] at hl
    | cons i rest ih =>
      intro st p hp hmode l hl
      simp only [runTicks, List.mem_cons] at hl
      rcases hl with hl | hl
      · rw [hl]
        exact tick_single_not_submitted st i p (hmode i (List.mem_cons_self i rest)) hp
      · exact ih (tick st i).state p (tick_programmed_mono st i p hp)
          (fun j hj => hmode j (List.mem_cons_of_mem i hj)) l hl
  · intro st inp pi hinfo hmode hstop hk hp hcap
    rw [tick_submissions_eq]
    rw [hinfo] at hp hcap ⊢
    have h1 : ¬(inp.mode = "Single" ∧
        pi.port ∈ (removeDisconnected st (currentPorts [pi])).programmed) := by
      rw [hmode]
      simp
    have h2 : pi.port ∈ (currentPorts [pi]).filter (fun p => p ∉ st.known_ports) ∧
        inp.stop = false ∧
        pi.port ∉ (removeDisconnected st (currentPorts [pi])).pending := by
      refine ⟨?_, hstop, hp⟩
      simp [currentPorts, hk]
    rw [dispatchLoop_one_admitted inp.settings inp.mode inp.stop _ _ pi _ _ h1 h2 hcap]
    simp

def c6stSingle : AutoState := ⟨["A"], [], [], ["A"]⟩

def c6inSingle : TickInput :=
  ⟨[⟨"A", "1-2", 1⟩], fun _ => FutureStatus.running, false, "Single", default_settings⟩

def c6stCont : AutoState := ⟨["B"], [], [], ["A"]⟩

def c6inCont : TickInput :=
  ⟨[⟨"A", "1-2", 1⟩], fun _ => FutureStatus.running, false, "Continuous", default_settings⟩

theorem claim_C6_mode_eligibility_witness :
    "A" ∉ (tick c6stSingle c6inSingle).submissions ∧
    "A" ∈ (tick c6stCont c6inCont).submissions := by
  constructor
  · refine claim_C6_mode_eligibility.1 [c6inSingle] c6stSingle "A" (by decide)
      (fun i hi => ?_) (tick c6stSingle c6inSingle).submissions (by simp [runTicks])
    rw [List.mem_singleton.mp hi]
    rfl
  · exact claim_C6_mode_eligibility.2 c6stCont c6inCont ⟨"A", "1-2", 1⟩ rfl rfl rfl
      (by decide) (by decide) (by decide)

end BulkMCUploader

namespace BulkMCUploader

def c5settings : Settings := { default_settings with max_devices_per_hub := 1 }

def c5info : List PortInfo := [⟨"A", "1-2", 1⟩, ⟨"B", "1-2", 1⟩]

def c5resA : ProgrammingResult := ⟨"A", true, "ok", "Uno", "arduino:avr:uno"⟩

def c5in1 : TickInput :=
  ⟨c5info, fun _ => FutureStatus.running, false, "Continuous", c5settings⟩

def c5in2 : TickInput :=
  ⟨c5info, fun p => if p = "A" then FutureStatus.done c5resA else FutureStatus.running,
   false, "Continuous", c5settings⟩

/-- Claim C5 fails on the code: with hub capacity 1 and ports `A`,`B` of
hub group `"1-2"` in the same scan, tick 1 admits only `A`; on tick 2
`A`'s result is drained and its slot released, yet `B` is not submitted
(it is no longer in `new_ports`); tick 3 under the unchanged scan is a
fixpoint with no submissions, so `B` is never admitted while it stays
connected, contradicting the claimed retry-on-a-later-tick. -/
theorem claim_C5_refused_port_never_readmitted :
    (tick initAuto c5in1).submissions = ["A"] ∧
    (tick (tick initAuto c5in1).state c5in2).submissions = [] ∧
    lookupSet (tick (tick initAuto c5in1).state c5in2).state.hub_load "1-2" = [] ∧
    (tick (tick initAuto c5in1).state c5in2).state.pending = [] ∧
    tick (tick (tick initAuto c5in1).state c5in2).state c5in1 =
      ⟨(tick (tick initAuto c5in1).state c5in2).state, [], []⟩ := by
  decide

def c8in1 : TickInput :=
  ⟨[⟨"C", "1-1.4", 2⟩], fun _ => FutureStatus.running, false, "Continuous",
   default_settings⟩

def c8in2 : TickInput :=
  ⟨[⟨"C", "1-1.4", 2⟩, ⟨"A", "1-1.4", 2⟩, ⟨"B", "1-1.4", 2⟩],
   fun _ => FutureStatus.running, false, "Continuous", default_settings⟩

/-- Claim C8 counterexample: a port at hub depth 2 is observed on tick 1,
yet the next poll tick still admits a second concurrent job to the same
hub group (active set `["C", "A"]`), because the poll loop never invokes
`detect_nested_hubs` and its tick does not modify the settings — so
subsequent ticks do not use a per-hub capacity of 1. -/
theorem claim_C8_counterexample :
    maxHubLevel c8in1.info = 2 ∧
    (tick initAuto c8in1).submissions = ["C"] ∧
    (tick (tick initAuto c8in1).state c8in2).submissions = ["A"] ∧
    lookupSet (tick (tick initAuto c8in1).state c8in2).state.hub_load "1-1.4" =
      ["C", "A"] := by
  decide

/-- Claim C8, amended: `detect_nested_hubs` (which runs from
`refresh_ports`, not from the programming poll loop) reports the maximum
hub level; when that level is at least 2 it clamps `max_devices_per_hub`
to 1 and `max_parallel_jobs` to at most 2 (never above its prior value),
leaves the settings unchanged otherwise, and never loosens
already-tightened settings. -/
theorem claim_C8_amended_tightening (info : List PortInfo) (s : Settings) :
    (detect_nested_hubs info s).1 = maxHubLevel info ∧
    (2 ≤ maxHubLevel info →
      (detect_nested_hubs info s).2.max_devices_per_hub = 1 ∧
      (detect_nested_hubs info s).2.max_parallel_jobs ≤ 2 ∧
      (detect_nested_hubs info s).2.max_parallel_jobs ≤ s.max_parallel_jobs) ∧
    (maxHubLevel info < 2 → (detect_nested_hubs info s).2 = s) ∧
    (s.max_devices_per_hub = 1 → (detect_nested_hubs info s).2.max_devices_per_hub = 1) ∧
    (s.max_parallel_jobs ≤ 2 → (detect_nested_hubs info s).2.max_parallel_jobs ≤ 2) := by
  simp only [detect_nested_hubs]
  by_cases h : 2 ≤ maxHubLevel info
  · rw [if_pos h]
    exact ⟨rfl, fun _ => ⟨rfl, Nat.min_le_left 2 _, Nat.min_le_right 2 _⟩,
      fun hc => absurd h (by omega), fun _ => rfl, fun _ => Nat.min_le_left 2 _⟩
  · rw [if_neg h]
    exact ⟨rfl, fun hc => absurd hc h, fun _ => rfl, fun h1 => h1, fun h2 => h2⟩

def c8tight : Settings :=
  { default_settings with max_devices_per_hub := 1, max_parallel_jobs := 2 }

theorem claim_C8_amended_tightening_witness :
    (detect_nested_hubs [⟨"C", "1-1.4", 2⟩] default_settings).2.max_devices_per_hub = 1 ∧
    (detect_nested_hubs [⟨"C", "1-1.4", 2⟩] default_settings).2.max_parallel_jobs ≤ 2 ∧
    (detect_nested_hubs [⟨"D", "direct", 0⟩] default_settings).2 = default_settings ∧
    (detect_nested_hubs [⟨"D", "direct", 0⟩] c8tight).2.max_devices_per_hub = 1 ∧
    (detect_nested_hubs [⟨"D", "direct", 0⟩] c8tight).2.max_parallel_jobs ≤ 2 :=
  ⟨((claim_C8_amended_tightening [⟨"C", "1-1.4", 2⟩] default_settings).2.1 (by decide)).1,
   ((claim_C8_amended_tightening [⟨"C", "1-1.4", 2⟩] default_settings).2.1 (by decide)).2.1,
   (claim_C8_amended_tightening [⟨"D", "direct", 0⟩] default_settings).2.2.1 (by decide),
   (claim_C8_amended_tightening [⟨"D", "direct", 0⟩] c8tight).2.2.2.1 rfl,
   (claim_C8_amended_tightening [⟨"D", "direct", 0⟩] c8tight).2.2.2.2 (by decide)⟩

end BulkMCUploader
